import Mathlib

/-!
Shallow embedding of a hybrid UDP transport protocol ("HUDP"):
a client (`client.py`: `HUDPClient`) with reliable sends, an ack listener and
a retransmit checker, and a server (`server.py`: `HUDPServer`) with a reliable
reordering receiver (gap-skip on timeout), an unreliable FIFO queue and an
RFC-3550-style jitter estimator.

Python dicts are embedded as association lists in insertion order
(`List (Nat × α)`): inserting a fresh key appends, assigning an existing key
updates in place, `del` removes the key.  Time is `ℚ` in seconds, as returned
by `time.time()`; wire timestamps are milliseconds.
-/

namespace HUDP

/-- Lookup in an association list (Python `d[k]` / `k in d`). -/
def dlookup {α : Type} : List (Nat × α) → Nat → Option α
  | [], _ => none
  | (k, v) :: rest, q => if q = k then some v else dlookup rest q

/-- Python `del d[k]` (also models the no-op when `k` is absent). -/
def derase {α : Type} (l : List (Nat × α)) (k : Nat) : List (Nat × α) :=
  l.filter (fun p => p.1 ≠ k)

/-- Python `d[k] = v`: update in place if the key exists, else append
(Python dicts preserve insertion order). -/
def dinsert {α : Type} (l : List (Nat × α)) (k : Nat) (v : α) : List (Nat × α) :=
  match dlookup l k with
  | some _ => l.map (fun p => if p.1 = k then (k, v) else p)
  | none => l ++ [(k, v)]

theorem dlookup_nil {α : Type} (q : Nat) : dlookup ([] : List (Nat × α)) q = none := rfl

theorem dlookup_cons {α : Type} (k q : Nat) (v : α) (rest : List (Nat × α)) :
    dlookup ((k, v) :: rest) q = if q = k then some v else dlookup rest q := rfl

theorem dlookup_append {α : Type} (l₁ l₂ : List (Nat × α)) (q : Nat) :
    dlookup (l₁ ++ l₂) q = (dlookup l₁ q).orElse (fun _ => dlookup l₂ q) := by
  induction l₁ with
  | nil => rfl
  | cons p rest ih =>
    obtain ⟨k, v⟩ := p
    by_cases h : q = k <;> simp [dlookup, h, ih]

theorem dlookup_derase {α : Type} (l : List (Nat × α)) (k q : Nat) :
    dlookup (derase l k) q = if q = k then none else dlookup l q := by
  induction l with
  | nil => simp [derase, dlookup]
  | cons p rest ih =>
    obtain ⟨k', v⟩ := p
    by_cases hk : k' = k
    · subst hk
      have hd : derase ((k', v) :: rest) k' = derase rest k' := by simp [derase]
      rw [hd, ih, dlookup_cons]
      by_cases hq : q = k' <;> simp [hq]
    · have hd : derase ((k', v) :: rest) k = (k', v) :: derase rest k := by
        simp [derase, hk]
      rw [hd, dlookup_cons, ih, dlookup_cons]
      by_cases hq : q = k'
      · have hqk : ¬ q = k := fun hc => hk (hq.symm.trans hc)
        rw [if_pos hq, if_neg hqk, if_pos hq]
      · rw [if_neg hq]
        by_cases hqk : q = k
        · rw [if_pos hqk, if_pos hqk]
        · rw [if_neg hqk, if_neg hqk, if_neg hq]

theorem dlookup_derase_self {α : Type} (l : List (Nat × α)) (k : Nat) :
    dlookup (derase l k) k = none := by simp [dlookup_derase]

theorem dlookup_derase_ne {α : Type} (l : List (Nat × α)) (k q : Nat) (h : q ≠ k) :
    dlookup (derase l k) q = dlookup l q := by simp [dlookup_derase, h]

theorem dlookup_map_update_self {α : Type} (l : List (Nat × α)) (k : Nat) (v : α)
    (h : (dlookup l k).isSome) :
    dlookup (l.map (fun p => if p.1 = k then (k, v) else p)) k = some v := by
  induction l with
  | nil => simp [dlookup] at h
  | cons p rest ih =>
    obtain ⟨k', v'⟩ := p
    rw [dlookup_cons] at h
    rw [List.map_cons]
    by_cases hk : k = k'
    · have hmap : (if (k', v').1 = k then ((k, v) : Nat × α) else (k', v')) = (k, v) :=
        if_pos hk.symm
      rw [hmap, dlookup_cons, if_pos rfl]
    · rw [if_neg hk] at h
      have hmap : (if (k', v').1 = k then ((k, v) : Nat × α) else (k', v')) = (k', v') :=
        if_neg (fun hc => hk hc.symm)
      rw [hmap, dlookup_cons, if_neg hk]
      exact ih h

theorem dlookup_map_update_ne {α : Type} (l : List (Nat × α)) (k q : Nat) (v : α)
    (h : q ≠ k) :
    dlookup (l.map (fun p => if p.1 = k then (k, v) else p)) q = dlookup l q := by
  induction l with
  | nil => rfl
  | cons p rest ih =>
    obtain ⟨k', v'⟩ := p
    rw [List.map_cons]
    by_cases hk : k' = k
    · have hmap : (if (k', v').1 = k then ((k, v) : Nat × α) else (k', v')) = (k, v) :=
        if_pos hk
      rw [hmap, dlookup_cons, dlookup_cons, if_neg h,
        if_neg (fun hc : q = k' => h (hc.trans hk))]
      exact ih
    · have hmap : (if (k', v').1 = k then ((k, v) : Nat × α) else (k', v')) = (k', v') :=
        if_neg hk
      rw [hmap, dlookup_cons, dlookup_cons]
      by_cases hq : q = k'
      · rw [if_pos hq, if_pos hq]
      · rw [if_neg hq, if_neg hq]
        exact ih

theorem dlookup_dinsert_self {α : Type} (l : List (Nat × α)) (k : Nat) (v : α) :
    dlookup (dinsert l k v) k = some v := by
  unfold dinsert
  cases hl : dlookup l k with
  | some v' =>
    exact dlookup_map_update_self l k v (by rw [hl]; rfl)
  | none =>
    rw [dlookup_append, hl]
    simp [dlookup]

theorem dlookup_dinsert_ne {α : Type} (l : List (Nat × α)) (k q : Nat) (v : α)
    (h : q ≠ k) : dlookup (dinsert l k v) q = dlookup l q := by
  unfold dinsert
  cases hl : dlookup l k with
  | some v' =>
    exact dlookup_map_update_ne l k q v h
  | none =>
    rw [dlookup_append]
    cases hq : dlookup l q with
    | none => simp [dlookup, h]
    | some v'' => simp

/-! ## Client model (`client.py`, class `HUDPClient`) -/

/-- A wire packet as built by `HUDPClient.send_message`:
`struct.pack('<BQQ', channel_type, seqno, timestamp_ms)` followed by the
UTF-8 payload.  The binary layout is abstracted to its fields; two packets
are byte-identical iff the fields coincide. -/
structure Packet where
  channel_type : Nat
  seqno : Nat
  timestamp_ms : Int
  payload : String
deriving DecidableEq, Repr

/-- The constant `HUDPClient.HEADER_SIZE` = `struct.calcsize('<BQQ')` = 17 bytes. -/
def HEADER_SIZE : Nat := 17

/-- Byte length of an encoded packet: header plus UTF-8 payload bytes. -/
def Packet.byteLength (p : Packet) : Nat := HEADER_SIZE + p.payload.utf8ByteSize

/-- An entry of `HUDPClient.pending_packets`:
`{'packet': packet, 'send_time': time.time(), 'retries': 0}`. -/
structure PendingEntry where
  packet : Packet
  send_time : ℚ
  retries : Nat
deriving DecidableEq, Repr

/-- The constant `HUDPClient.TIMEOUT` (seconds). -/
def TIMEOUT : ℚ := 1/10

/-- The constant `HUDPClient.MAX_THRESHOLD` (seconds). -/
def MAX_THRESHOLD : ℚ := 1/5

/-- State of an `HUDPClient` instance: `seqno`, `pending_packets`, and the
`metrics` dict fields. -/
structure ClientState where
  seqno : Nat
  pending_packets : List (Nat × PendingEntry)
  packets_sent_reliable : Nat
  packets_sent_unreliable : Nat
  packets_acked : Nat
  retransmissions : Nat
  latencies : List ℚ
  bytes_sent : Nat
deriving DecidableEq, Repr

/-- Model of `HUDPClient.__init__`: `seqno = 0`, empty `pending_packets`, zeroed metrics. -/
def initClient : ClientState :=
  { seqno := 0, pending_packets := [], packets_sent_reliable := 0,
    packets_sent_unreliable := 0, packets_acked := 0, retransmissions := 0,
    latencies := [], bytes_sent := 0 }

/-- Model of `HUDPClient.send_message(payload, isReliable)` at clock reading `now`
(seconds): `timestamp_ms = int(time.time()*1000)`; channel tag 0 for
reliable, 1 for unreliable; the packet is transmitted, tracked (when
reliable) with retry count 0 and send-time `now`, and `seqno` is then
incremented.  The Python function has no `return` statement, so its value
is `None`; that value is the last component (always `none`).
Result: (new state, transmitted packet, Python return value). -/
def send_message (st : ClientState) (payload : String) (isReliable : Bool)
    (now : ℚ) : ClientState × Packet × Option Nat :=
  let timestamp_ms : Int := ⌊now * 1000⌋
  let channel_type : Nat := if isReliable then 0 else 1
  let packet : Packet :=
    { channel_type := channel_type, seqno := st.seqno,
      timestamp_ms := timestamp_ms, payload := payload }
  let entry : PendingEntry := { packet := packet, send_time := now, retries := 0 }
  let st₁ :=
    if isReliable then
      { st with pending_packets := dinsert st.pending_packets st.seqno entry }
    else st
  let st₂ := { st₁ with
      seqno := st₁.seqno + 1,
      bytes_sent := st₁.bytes_sent + packet.byteLength,
      packets_sent_reliable :=
        st₁.packets_sent_reliable + (if isReliable then 1 else 0),
      packets_sent_unreliable :=
        st₁.packets_sent_unreliable + (if isReliable then 0 else 1) }
  (st₂, packet, none)

/-- Model of `HUDPClient._ack_listener`, body of the `channel_type == 255` branch at
clock reading `now`: if the acked sequence number is tracked, record
`rtt = now - send_time`, bump `packets_acked`, and delete the entry;
otherwise do nothing. -/
def process_ack (st : ClientState) (ack_seqno : Nat) (now : ℚ) : ClientState :=
  match dlookup st.pending_packets ack_seqno with
  | some e =>
      { st with
        latencies := st.latencies ++ [now - e.send_time],
        packets_acked := st.packets_acked + 1,
        pending_packets := derase st.pending_packets ack_seqno }
  | none => st

/-- One decoded datagram through `HUDPClient._ack_listener`: only records
with `channel_type == 255` are treated as acks. -/
def on_ack (st : ClientState) (channel_type ack_seqno : Nat) (now : ℚ) :
    ClientState :=
  if channel_type = 255 then process_ack st ack_seqno now else st

/-- The per-entry decision of `HUDPClient._retransmit_checker`:
`none` means the entry is dropped (give-up), `some e'` the entry kept
(possibly with updated send-time/retries). -/
def retransmit_step (now : ℚ) (e : PendingEntry) : Option PendingEntry :=
  if now - e.send_time > TIMEOUT then
    if now - e.send_time > MAX_THRESHOLD then none
    else some { e with send_time := now, retries := e.retries + 1 }
  else some e

/-- Does one pass of `_retransmit_checker` resend this entry's packet? -/
def resendFires (now : ℚ) (e : PendingEntry) : Bool :=
  decide (now - e.send_time > TIMEOUT) && decide (¬ now - e.send_time > MAX_THRESHOLD)

/-- One pass of the `for seqno, info in list(self.pending_packets.items())`
loop in `HUDPClient._retransmit_checker` at clock reading `now`.  Returns
the surviving tracked entries (in order) and the list of packets resent
during the pass. -/
def retransmit_pass (now : ℚ) :
    List (Nat × PendingEntry) → List (Nat × PendingEntry) × List Packet
  | [] => ([], [])
  | (k, e) :: rest =>
    let r := retransmit_pass now rest
    if now - e.send_time > TIMEOUT then
      if now - e.send_time > MAX_THRESHOLD then r
      else ((k, { e with send_time := now, retries := e.retries + 1 }) :: r.1,
            e.packet :: r.2)
    else ((k, e) :: r.1, r.2)

/-- One iteration of `HUDPClient._retransmit_checker` over the whole store,
updating the `retransmissions` metric once per resend. -/
def retransmit_checker (st : ClientState) (now : ℚ) : ClientState × List Packet :=
  let r := retransmit_pass now st.pending_packets
  ({ st with pending_packets := r.1,
             retransmissions := st.retransmissions + r.2.length }, r.2)

/-! ## Server model (`server.py`, class `HUDPServer`) -/

/-- The constant `HUDPServer.TIMEOUT_THRESHOLD` (seconds). -/
def TIMEOUT_THRESHOLD : ℚ := 1/5

/-- State of an `HUDPServer` instance: the reorder buffer
(`reliable_buffer`), the gap-wait map (`pending_packets`, sequence number →
wait start time), the delivery cursor (`next_expected_reliable`),
`gap_start_time`, the unreliable FIFO, and the `metrics` dict fields used by
the protocol logic. -/
structure ServerState where
  reliable_buffer : List (Nat × String)
  pending_packets : List (Nat × ℚ)
  next_expected_reliable : Nat
  gap_start_time : Option ℚ
  unreliable_queue : List (Nat × String)
  packets_received_reliable : Nat
  packets_delivered_reliable : Nat
  packets_skipped : Nat
  bytes_received : Nat
  jitter : ℚ
  last_arrival : Option ℚ
  last_timestamp : Option ℚ
deriving DecidableEq, Repr

/-- Model of `HUDPServer.__init__`: empty buffers, cursor 0, zeroed metrics,
`last_arrival`/`last_timestamp` = `None`. -/
def initServer : ServerState :=
  { reliable_buffer := [], pending_packets := [], next_expected_reliable := 0,
    gap_start_time := none, unreliable_queue := [],
    packets_received_reliable := 0, packets_delivered_reliable := 0,
    packets_skipped := 0, bytes_received := 0, jitter := 0,
    last_arrival := none, last_timestamp := none }

/-- Model of `HUDPServer._calculate_jitter(timestamp, arrival_time)`: `timestamp` is
the remote send time in milliseconds (from the wire header), `arrival_time`
the local clock in seconds.  If a previous sample exists,
`D = (arrival_time - last_arrival) - (timestamp - last_timestamp)/1000` and
`jitter += (|D| - jitter)/16`; the sample is stored in both cases. -/
def calculate_jitter (st : ServerState) (timestamp arrival_time : ℚ) :
    ServerState :=
  let st' :=
    match st.last_arrival, st.last_timestamp with
    | some la, some lt =>
        let D := (arrival_time - la) - (timestamp - lt) / 1000
        { st with jitter := st.jitter + (|D| - st.jitter) / 16 }
    | _, _ => st
  { st' with last_arrival := some arrival_time, last_timestamp := some timestamp }

/-- The `for i in range(self.next_expected_reliable, seqno)` loop of
`HUDPServer._handle_reliable_channel`: record a gap-wait start time for
every hole between the cursor and the new arrival that is neither already
awaited nor already buffered.  `buf` is the (already updated) reorder
buffer, which the loop only reads. -/
def fill_gaps (buf : List (Nat × String)) (t : ℚ) :
    List (Nat × ℚ) → List Nat → List (Nat × ℚ)
  | pend, [] => pend
  | pend, i :: rest =>
    if (dlookup pend i).isSome || (dlookup buf i).isSome then
      fill_gaps buf t pend rest
    else
      fill_gaps buf t (dinsert pend i t) rest

/-- Model of `HUDPServer._handle_reliable_channel(seqno, payload, client_addr)` at
clock reading `now`.  An `AckRecord` `(255, seqno)` is built and sent to the
sender's address first, unconditionally; then: a sequence number below the
cursor is discarded, an unbuffered one is stored, its gap-wait (if any)
cleared, and new holes between the cursor and it start their wait clocks.
Result: (new state, the ack that was sent). -/
def handle_reliable_channel (st : ServerState) (seqno : Nat) (payload : String)
    (now : ℚ) : ServerState × Nat × Nat :=
  let ack : Nat × Nat := (255, seqno)
  if seqno < st.next_expected_reliable then
    (st, ack)
  else if (dlookup st.reliable_buffer seqno).isSome then
    (st, ack)
  else
    let buf := dinsert st.reliable_buffer seqno payload
    let pend := derase st.pending_packets seqno
    let pend' :=
      if st.next_expected_reliable < seqno then
        fill_gaps buf now pend
          (List.range' st.next_expected_reliable (seqno - st.next_expected_reliable))
      else pend
    ({ st with reliable_buffer := buf, pending_packets := pend' }, ack)

/-- Model of `HUDPServer._handle_unreliable_channel(seqno, payload)`: append to the
arrival-ordered FIFO. -/
def handle_unreliable_channel (st : ServerState) (seqno : Nat)
    (payload : String) : ServerState :=
  { st with unreliable_queue := st.unreliable_queue ++ [(seqno, payload)] }

/-- One decoded datagram through `HUDPServer._packet_receiver`: channel 0
updates the received metrics and the jitter estimate, then runs the
reliable handler (returning the ack it sent); channel 1 enqueues into the
unreliable FIFO; other tags are ignored. -/
def packet_receiver_step (st : ServerState) (channel_type seqno : Nat)
    (timestamp : ℚ) (payload : String) (now : ℚ) :
    ServerState × Option (Nat × Nat) :=
  if channel_type = 0 then
    let st₁ := { st with
        packets_received_reliable := st.packets_received_reliable + 1,
        bytes_received := st.bytes_received + payload.utf8ByteSize }
    let st₂ := calculate_jitter st₁ timestamp now
    let r := handle_reliable_channel st₂ seqno payload now
    (r.1, some r.2)
  else if channel_type = 1 then
    (handle_unreliable_channel st seqno payload, none)
  else (st, none)

/-- Model of `HUDPServer.receive_reliable()`: non-blocking poll.  If the reorder
buffer holds the cursor's sequence number, remove it, advance the cursor by
1, reset `gap_start_time`, bump the delivered metric and return
`(seqno, payload)`; else return `None` and leave the state unchanged. -/
def receive_reliable (st : ServerState) : ServerState × Option (Nat × String) :=
  match dlookup st.reliable_buffer st.next_expected_reliable with
  | some payload =>
      let seqno := st.next_expected_reliable
      ({ st with
          reliable_buffer := derase st.reliable_buffer seqno,
          next_expected_reliable := seqno + 1,
          gap_start_time := none,
          packets_delivered_reliable := st.packets_delivered_reliable + 1 },
       some (seqno, payload))
  | none => (st, none)

/-- Model of `HUDPServer.receive_unreliable()`: pop the oldest FIFO entry, if any. -/
def receive_unreliable (st : ServerState) : ServerState × Option (Nat × String) :=
  match st.unreliable_queue with
  | [] => (st, none)
  | q :: rest => ({ st with unreliable_queue := rest }, some q)

/-- One iteration of the `HUDPServer._timeout_checker` loop at clock reading
`now`: if the cursor's sequence number is being awaited and its wait has
exceeded `TIMEOUT_THRESHOLD`, permanently skip it (drop the gap-wait, bump
the skipped metric, advance the cursor by 1). -/
def timeout_checker_step (st : ServerState) (now : ℚ) : ServerState :=
  match dlookup st.pending_packets st.next_expected_reliable with
  | some start_time =>
      if now - start_time > TIMEOUT_THRESHOLD then
        { st with
            pending_packets := derase st.pending_packets st.next_expected_reliable,
            packets_skipped := st.packets_skipped + 1,
            next_expected_reliable := st.next_expected_reliable + 1 }
      else st
  | none => st

/-- Does this `receive_reliable` call deliver (reorder entry at the cursor)? -/
def deliveryReady (st : ServerState) : Bool :=
  (dlookup st.reliable_buffer st.next_expected_reliable).isSome

/-- Does this `_timeout_checker` iteration skip the cursor's sequence number? -/
def skipFires (st : ServerState) (now : ℚ) : Bool :=
  match dlookup st.pending_packets st.next_expected_reliable with
  | some start_time => decide (now - start_time > TIMEOUT_THRESHOLD)
  | none => false

/-- The operations that can touch an `HUDPServer`'s receiver state:
a datagram arrival (receiver thread), an application poll on either
channel, or one timeout-checker iteration (timer thread). -/
inductive ServerOp where
  | arrive (channel_type seqno : Nat) (timestamp : ℚ) (payload : String) (now : ℚ)
  | deliver
  | deliverU
  | timeout (now : ℚ)
deriving DecidableEq, Repr

/-- State transition of one server operation (outputs discarded). -/
def applyOp (st : ServerState) : ServerOp → ServerState
  | .arrive c s t p now => (packet_receiver_step st c s t p now).1
  | .deliver => (receive_reliable st).1
  | .deliverU => (receive_unreliable st).1
  | .timeout now => timeout_checker_step st now

/-- Does this operation advance the delivery cursor?  Exactly the successful
deliveries and the gap-skips. -/
def opAdvances (st : ServerState) : ServerOp → Bool
  | .deliver => deliveryReady st
  | .timeout now => skipFires st now
  | _ => false

/-! ## Helper lemmas: field preservation and cursor behaviour -/

theorem calculate_jitter_buffer (st : ServerState) (T A : ℚ) :
    (calculate_jitter st T A).reliable_buffer = st.reliable_buffer := by
  cases hla : st.last_arrival <;> cases hlt : st.last_timestamp <;>
    simp [calculate_jitter, hla, hlt]

theorem calculate_jitter_pending (st : ServerState) (T A : ℚ) :
    (calculate_jitter st T A).pending_packets = st.pending_packets := by
  cases hla : st.last_arrival <;> cases hlt : st.last_timestamp <;>
    simp [calculate_jitter, hla, hlt]

theorem calculate_jitter_cursor (st : ServerState) (T A : ℚ) :
    (calculate_jitter st T A).next_expected_reliable = st.next_expected_reliable := by
  cases hla : st.last_arrival <;> cases hlt : st.last_timestamp <;>
    simp [calculate_jitter, hla, hlt]

theorem handle_reliable_cursor (st : ServerState) (seqno : Nat) (payload : String)
    (now : ℚ) :
    (handle_reliable_channel st seqno payload now).1.next_expected_reliable
      = st.next_expected_reliable := by
  unfold handle_reliable_channel
  by_cases h1 : seqno < st.next_expected_reliable
  · simp [h1]
  · by_cases h2 : (dlookup st.reliable_buffer seqno).isSome <;> simp [h1, h2]

theorem packet_receiver_cursor (st : ServerState) (c s : Nat) (t : ℚ) (p : String)
    (now : ℚ) :
    (packet_receiver_step st c s t p now).1.next_expected_reliable
      = st.next_expected_reliable := by
  by_cases h0 : c = 0
  · simp [packet_receiver_step, h0, handle_reliable_cursor, calculate_jitter_cursor]
  · by_cases h1 : c = 1 <;>
      simp [packet_receiver_step, h0, h1, handle_unreliable_channel]

/-- The delivery cursor after one operation: unchanged, except `+ 1` exactly
when a delivery or a gap-skip happens. -/
theorem cursor_applyOp (st : ServerState) (op : ServerOp) :
    (applyOp st op).next_expected_reliable
      = st.next_expected_reliable + (if opAdvances st op then 1 else 0) := by
  cases op with
  | arrive c s t p now =>
      simp [applyOp, opAdvances, packet_receiver_cursor]
  | deliver =>
      unfold applyOp receive_reliable opAdvances deliveryReady
      cases h : dlookup st.reliable_buffer st.next_expected_reliable <;> simp [h]
  | deliverU =>
      unfold applyOp receive_unreliable opAdvances
      cases st.unreliable_queue <;> simp
  | timeout now =>
      unfold applyOp timeout_checker_step opAdvances skipFires
      cases h : dlookup st.pending_packets st.next_expected_reliable with
      | none => simp
      | some t0 =>
          by_cases he : now - t0 > TIMEOUT_THRESHOLD <;> simp [he]

theorem cursor_le_applyOp (st : ServerState) (op : ServerOp) :
    st.next_expected_reliable ≤ (applyOp st op).next_expected_reliable := by
  rw [cursor_applyOp]
  exact Nat.le_add_right _ _

theorem cursor_le_foldl (ops : List ServerOp) (st : ServerState) :
    st.next_expected_reliable ≤ (ops.foldl applyOp st).next_expected_reliable := by
  induction ops generalizing st with
  | nil => exact Nat.le_refl _
  | cons op rest ih =>
      exact Nat.le_trans (cursor_le_applyOp st op) (ih (applyOp st op))

/-- A reliable arrival whose sequence number is below the cursor changes
nothing (the "duplicate, ignoring" early return). -/
theorem handle_reliable_stale (st : ServerState) (seqno : Nat) (payload : String)
    (now : ℚ) (h : seqno < st.next_expected_reliable) :
    (handle_reliable_channel st seqno payload now).1 = st := by
  unfold handle_reliable_channel
  simp [h]

/-- The result of `receive_reliable` only ever carries the cursor value as its sequence number. -/
theorem receive_reliable_some_eq_cursor (st : ServerState) (r : Nat × String)
    (h : (receive_reliable st).2 = some r) : r.1 = st.next_expected_reliable := by
  unfold receive_reliable at h
  cases hl : dlookup st.reliable_buffer st.next_expected_reliable with
  | none => rw [hl] at h; exact absurd h (by simp)
  | some v =>
      rw [hl] at h
      have h' : (st.next_expected_reliable, v) = r := Option.some.inj h
      rw [← h']

/-- A firing timeout advances the cursor to the skipped number plus one. -/
theorem timeout_skip_cursor (st : ServerState) (now : ℚ)
    (h : skipFires st now = true) :
    (timeout_checker_step st now).next_expected_reliable
      = st.next_expected_reliable + 1 := by
  have := cursor_applyOp st (.timeout now)
  simp only [applyOp, opAdvances] at this
  rw [this]
  simp [h]

/-! ## C2 -/

/-- C2: the delivery cursor `next_expected_reliable` is monotonically
non-decreasing across every receiver operation, and it changes by exactly 1
precisely on a successful delivery by `receive_reliable` or a gap-skip by
`_timeout_checker`; no other operation changes it. -/
theorem cursor_monotone_unit_advance (st : ServerState) (op : ServerOp) :
    st.next_expected_reliable ≤ (applyOp st op).next_expected_reliable ∧
    (applyOp st op).next_expected_reliable
      = st.next_expected_reliable + (if opAdvances st op then 1 else 0) :=
  ⟨cursor_le_applyOp st op, cursor_applyOp st op⟩

/-! ## C6 -/

/-- C6: for every reliable-tagged packet received with sequence number `s`,
`_handle_reliable_channel` sends the AckRecord `(255, s)` back to the
sender, whatever the delivery state (duplicate, buffered, delivered or
skipped): the ack it sends does not depend on the receiver state at all. -/
theorem ack_always_sent (st : ServerState) (seqno : Nat) (payload : String)
    (now : ℚ) :
    (handle_reliable_channel st seqno payload now).2 = (255, seqno) := by
  unfold handle_reliable_channel
  by_cases h1 : seqno < st.next_expected_reliable
  · simp [h1]
  · by_cases h2 : (dlookup st.reliable_buffer seqno).isSome <;> simp [h1, h2]

/-! ## C7 -/

/-- C7: once the gap-skip fires for the cursor's sequence number `s`, after
any further trace of receiver operations, a reliable packet carrying `s`
is discarded with the whole state unchanged, and `receive_reliable` never
returns `s`. -/
theorem skipped_never_delivered (st₀ : ServerState) (now : ℚ)
    (h : skipFires st₀ now = true) (ops : List ServerOp) (p : String) (t' : ℚ) :
    (handle_reliable_channel (ops.foldl applyOp (timeout_checker_step st₀ now))
        st₀.next_expected_reliable p t').1
      = ops.foldl applyOp (timeout_checker_step st₀ now) ∧
    ∀ r : Nat × String,
      (receive_reliable (ops.foldl applyOp (timeout_checker_step st₀ now))).2
          = some r →
      r.1 ≠ st₀.next_expected_reliable := by
  have hlt : st₀.next_expected_reliable
      < (ops.foldl applyOp (timeout_checker_step st₀ now)).next_expected_reliable := by
    have h1 := timeout_skip_cursor st₀ now h
    have h2 := cursor_le_foldl ops (timeout_checker_step st₀ now)
    omega
  refine ⟨handle_reliable_stale _ _ _ _ hlt, ?_⟩
  intro r hr
  rw [receive_reliable_some_eq_cursor _ r hr]
  omega

/-- Concrete receiver state used to witness the gap-skip scenario: the
cursor's sequence number 0 has been awaited since time 0. -/
def skipDemoState : ServerState :=
  { initServer with pending_packets := [(0, 0)] }

theorem skipped_never_delivered_witness :
    (handle_reliable_channel
        (([] : List ServerOp).foldl applyOp (timeout_checker_step skipDemoState 1))
        skipDemoState.next_expected_reliable "x" 0).1
      = ([] : List ServerOp).foldl applyOp (timeout_checker_step skipDemoState 1) ∧
    ∀ r : Nat × String,
      (receive_reliable
          (([] : List ServerOp).foldl applyOp (timeout_checker_step skipDemoState 1))).2
          = some r →
      r.1 ≠ skipDemoState.next_expected_reliable :=
  skipped_never_delivered skipDemoState 1
    (by norm_num [skipFires, skipDemoState, initServer, dlookup, TIMEOUT_THRESHOLD])
    [] "x" 0

/-! ## C3 -/

/-- C3 counterexample: the claim says `send` returns the assigned sequence
number to the caller, but `send_message` in `client.py` has no `return`
statement — its Python return value is `None`, not the sequence number `0`
assigned by this first send. -/
theorem send_message_returns_none :
    (send_message initClient "a" true 0).2.2 ≠ some 0 := by
  simp [send_message]

/-- C3 (amended): every `send_message` call stamps the transmitted packet
with the current value of the single `seqno` counter shared by both
channels and then increments that counter by 1 (so interleaved reliable and
unreliable sends get adjacent sequence numbers); the function returns
`None`, not the sequence number; when the send is reliable a tracked entry
keyed by that sequence number is inserted with retry count 0 and
send-time = now, and when unreliable the tracked store is untouched. -/
theorem send_message_spec (st : ClientState) (payload : String)
    (isReliable : Bool) (now : ℚ) :
    (send_message st payload isReliable now).2.1.seqno = st.seqno ∧
    (send_message st payload isReliable now).2.1.channel_type
      = (if isReliable then 0 else 1) ∧
    (send_message st payload isReliable now).1.seqno = st.seqno + 1 ∧
    (send_message st payload isReliable now).2.2 = none ∧
    (isReliable = true →
      dlookup (send_message st payload isReliable now).1.pending_packets st.seqno
        = some { packet := (send_message st payload isReliable now).2.1,
                 send_time := now, retries := 0 }) ∧
    (isReliable = false →
      (send_message st payload isReliable now).1.pending_packets
        = st.pending_packets) ∧
    (∀ (payload' : String) (rel' : Bool) (now' : ℚ),
      (send_message (send_message st payload isReliable now).1
          payload' rel' now').2.1.seqno = st.seqno + 1) := by
  cases isReliable <;>
    simp [send_message, dlookup_dinsert_self]

theorem send_message_spec_witness :
    dlookup (send_message initClient "a" true 0).1.pending_packets 0
      = some { packet := (send_message initClient "a" true 0).2.1,
               send_time := 0, retries := 0 } ∧
    (send_message (send_message initClient "a" true 0).1 "b" false 1).2.1.seqno
      = 0 + 1 :=
  ⟨(send_message_spec initClient "a" true 0).2.2.2.2.1 rfl,
   (send_message_spec initClient "a" true 0).2.2.2.2.2.2 "b" false 1⟩

/-! ## C5 -/

/-- C5: the ack matcher (`_ack_listener`, sentinel 255) either matches a
tracked packet — recording `RTT = now - send_time`, bumping the acked
count, removing exactly that tracked entry and touching nothing else — or,
when the acked sequence number is not tracked, leaves the entire client
state unchanged (no error). -/
theorem ack_matcher (st : ClientState) (a : Nat) (now : ℚ) :
    (∀ e : PendingEntry, dlookup st.pending_packets a = some e →
      on_ack st 255 a now =
        { st with
          latencies := st.latencies ++ [now - e.send_time],
          packets_acked := st.packets_acked + 1,
          pending_packets := derase st.pending_packets a } ∧
      dlookup (on_ack st 255 a now).pending_packets a = none) ∧
    (dlookup st.pending_packets a = none → on_ack st 255 a now = st) := by
  constructor
  · intro e he
    constructor
    · simp [on_ack, process_ack, he]
    · simp [on_ack, process_ack, he, dlookup_derase_self]
  · intro hn
    simp [on_ack, process_ack, hn]

/-- Tracked entry used to witness the ack-matcher behaviour. -/
def ackDemoEntry : PendingEntry :=
  { packet := { channel_type := 0, seqno := 5, timestamp_ms := 0, payload := "m" },
    send_time := 2, retries := 0 }

/-- Client state tracking exactly sequence number 5. -/
def ackDemoState : ClientState :=
  { initClient with pending_packets := [(5, ackDemoEntry)] }

theorem ack_matcher_witness :
    (on_ack ackDemoState 255 5 3 =
      { ackDemoState with
        latencies := ackDemoState.latencies ++ [3 - ackDemoEntry.send_time],
        packets_acked := ackDemoState.packets_acked + 1,
        pending_packets := derase ackDemoState.pending_packets 5 } ∧
      dlookup (on_ack ackDemoState 255 5 3).pending_packets 5 = none) ∧
    on_ack initClient 255 5 3 = initClient :=
  ⟨(ack_matcher ackDemoState 5 3).1 ackDemoEntry rfl,
   (ack_matcher initClient 5 3).2 rfl⟩

/-! ## C4: retransmit scheduler -/

theorem dlookup_eq_none_of_not_mem_keys {α : Type} (l : List (Nat × α)) (q : Nat)
    (h : q ∉ l.map Prod.fst) : dlookup l q = none := by
  induction l with
  | nil => rfl
  | cons p rest ih =>
    obtain ⟨k, v⟩ := p
    rw [List.map_cons, List.mem_cons] at h
    push_neg at h
    rw [dlookup_cons, if_neg h.1]
    exact ih h.2

theorem dlookup_mem {α : Type} (l : List (Nat × α)) (k : Nat) (v : α)
    (h : dlookup l k = some v) : (k, v) ∈ l := by
  induction l with
  | nil => simp [dlookup] at h
  | cons p rest ih =>
    obtain ⟨k', v'⟩ := p
    rw [dlookup_cons] at h
    by_cases hq : k = k'
    · rw [if_pos hq] at h
      obtain rfl := Option.some.inj h
      rw [hq]
      exact List.mem_cons_self _ _
    · rw [if_neg hq] at h
      exact List.mem_cons_of_mem _ (ih h)

/-- Surviving keys of one retransmit pass all come from the input store. -/
theorem retransmit_pass_keys_subset (now : ℚ) (L : List (Nat × PendingEntry))
    (q : Nat) (h : q ∈ (retransmit_pass now L).1.map Prod.fst) :
    q ∈ L.map Prod.fst := by
  induction L with
  | nil => simp [retransmit_pass] at h
  | cons p rest ih =>
    obtain ⟨k, e⟩ := p
    rw [List.map_cons, List.mem_cons]
    by_cases h1 : now - e.send_time > TIMEOUT
    · by_cases h2 : now - e.send_time > MAX_THRESHOLD
      · exact Or.inr (ih (by simpa [retransmit_pass, h1, h2] using h))
      · simp only [retransmit_pass, if_pos h1, if_neg h2, List.map_cons,
          List.mem_cons] at h
        exact h.imp id ih
    · simp only [retransmit_pass, if_neg h1, List.map_cons, List.mem_cons] at h
      exact h.imp id ih

/-- The packets resent by one retransmit pass are exactly those of the
tracked entries whose elapsed time is in the retransmit window. -/
theorem retransmit_pass_sends (now : ℚ) (L : List (Nat × PendingEntry)) :
    (retransmit_pass now L).2
      = (L.filter (fun p => resendFires now p.2)).map (fun p => p.2.packet) := by
  induction L with
  | nil => rfl
  | cons p rest ih =>
    obtain ⟨k, e⟩ := p
    by_cases h1 : now - e.send_time > TIMEOUT
    · by_cases h2 : now - e.send_time > MAX_THRESHOLD
      · have hres : resendFires now e = false := by simp [resendFires, h1, h2]
        simp [retransmit_pass, h1, h2, ih, List.filter_cons, hres]
      · have hres : resendFires now e = true := by simp [resendFires, h1, h2]
        simp [retransmit_pass, h1, h2, ih, List.filter_cons, hres]
    · have hres : resendFires now e = false := by simp [resendFires, h1]
      simp [retransmit_pass, h1, ih, List.filter_cons, hres]

/-- Under unique keys, one retransmit pass acts on each tracked entry by
`retransmit_step`. -/
theorem retransmit_pass_lookup (now : ℚ) (L : List (Nat × PendingEntry))
    (k : Nat) (e : PendingEntry) (hnd : (L.map Prod.fst).Nodup)
    (h : dlookup L k = some e) :
    dlookup (retransmit_pass now L).1 k = retransmit_step now e := by
  induction L with
  | nil => simp [dlookup] at h
  | cons p rest ih =>
    obtain ⟨k', e'⟩ := p
    rw [List.map_cons, List.nodup_cons] at hnd
    obtain ⟨hk', hnd'⟩ := hnd
    rw [dlookup_cons] at h
    by_cases hq : k = k'
    · rw [if_pos hq] at h
      have he : e = e' := (Option.some.inj h).symm
      subst he
      subst hq
      by_cases h1 : now - e.send_time > TIMEOUT
      · by_cases h2 : now - e.send_time > MAX_THRESHOLD
        · have hnone : dlookup (retransmit_pass now rest).1 k = none := by
            apply dlookup_eq_none_of_not_mem_keys
            intro hmem
            exact hk' (retransmit_pass_keys_subset now rest k hmem)
          simp [retransmit_pass, retransmit_step, h1, h2, hnone]
        · simp [retransmit_pass, retransmit_step, h1, h2, dlookup_cons]
      · simp [retransmit_pass, retransmit_step, h1, dlookup_cons]
    · rw [if_neg hq] at h
      by_cases h1 : now - e'.send_time > TIMEOUT
      · by_cases h2 : now - e'.send_time > MAX_THRESHOLD
        · simpa [retransmit_pass, h1, h2] using ih hnd' h
        · simp only [retransmit_pass, if_pos h1, if_neg h2, dlookup_cons,
            if_neg hq]
          exact ih hnd' h
      · simp only [retransmit_pass, if_neg h1, dlookup_cons, if_neg hq]
        exact ih hnd' h

/-- C4: one pass of `_retransmit_checker` at clock `now`, for any tracked
entry `(k, e)` with `elapsed = now - e.send_time`: if elapsed exceeds both
the 100 ms retransmit timeout and the 200 ms give-up bound, the entry is
dropped and contributes no resend; if it exceeds the timeout but not the
bound, the identical packet is resent, the send-time reset to `now` and the
retry count incremented; otherwise the entry is untouched.  The resent
packets of the pass are exactly those of the entries in the retransmit
window. -/
theorem retransmit_scheduler_cases (st : ClientState) (now : ℚ) (k : Nat)
    (e : PendingEntry)
    (hnd : (st.pending_packets.map Prod.fst).Nodup)
    (h : dlookup st.pending_packets k = some e) :
    (retransmit_checker st now).2
      = (st.pending_packets.filter (fun p => resendFires now p.2)).map
          (fun p => p.2.packet) ∧
    (now - e.send_time > TIMEOUT → now - e.send_time > MAX_THRESHOLD →
      dlookup (retransmit_checker st now).1.pending_packets k = none ∧
      resendFires now e = false) ∧
    (now - e.send_time > TIMEOUT → ¬ now - e.send_time > MAX_THRESHOLD →
      dlookup (retransmit_checker st now).1.pending_packets k
        = some { packet := e.packet, send_time := now, retries := e.retries + 1 } ∧
      e.packet ∈ (retransmit_checker st now).2) ∧
    (¬ now - e.send_time > TIMEOUT →
      dlookup (retransmit_checker st now).1.pending_packets k = some e) := by
  have hpass := retransmit_pass_lookup now st.pending_packets k e hnd h
  have hsends := retransmit_pass_sends now st.pending_packets
  have hfield : (retransmit_checker st now).1.pending_packets
      = (retransmit_pass now st.pending_packets).1 := rfl
  have hout : (retransmit_checker st now).2
      = (retransmit_pass now st.pending_packets).2 := rfl
  refine ⟨by rw [hout, hsends], ?_, ?_, ?_⟩
  · intro h1 h2
    refine ⟨?_, by simp [resendFires, h1, h2]⟩
    rw [hfield, hpass]
    simp [retransmit_step, h1, h2]
  · intro h1 h2
    constructor
    · rw [hfield, hpass]
      simp [retransmit_step, h1, h2]
    · rw [hout, hsends]
      have hm : (k, e) ∈ st.pending_packets := dlookup_mem _ _ _ h
      have hf : (k, e) ∈ st.pending_packets.filter (fun p => resendFires now p.2) :=
        List.mem_filter.mpr ⟨hm, by simp [resendFires, h1, h2]⟩
      exact List.mem_map_of_mem _ hf
  · intro h1
    rw [hfield, hpass]
    simp [retransmit_step, h1]

/-- Packet used to witness the retransmit scheduler behaviour. -/
def retransmitDemoPacket : Packet :=
  { channel_type := 0, seqno := 0, timestamp_ms := 0, payload := "hi" }

/-- Its tracked entry, sent at time 0 with no retries yet. -/
def retransmitDemoEntry : PendingEntry :=
  { packet := retransmitDemoPacket, send_time := 0, retries := 0 }

/-- Client state tracking exactly that packet. -/
def retransmitDemoState : ClientState :=
  { initClient with pending_packets := [(0, retransmitDemoEntry)] }

theorem retransmit_scheduler_witness :
    dlookup (retransmit_checker retransmitDemoState (3/20)).1.pending_packets 0
      = some { packet := retransmitDemoEntry.packet, send_time := 3/20,
               retries := retransmitDemoEntry.retries + 1 } ∧
    retransmitDemoEntry.packet ∈ (retransmit_checker retransmitDemoState (3/20)).2 :=
  (retransmit_scheduler_cases retransmitDemoState (3/20) 0 retransmitDemoEntry
      (by simp [retransmitDemoState, initClient])
      rfl).2.2.1
    (by norm_num [retransmitDemoEntry, TIMEOUT])
    (by norm_num [retransmitDemoEntry, MAX_THRESHOLD])

/-! ## C10 / C8: the reorder buffer and the gap-wait map -/

/-- No sequence number is simultaneously a key of the reorder buffer and a
key of the gap-wait map. -/
def disjointKeys (st : ServerState) : Prop :=
  ∀ k : Nat,
    dlookup st.reliable_buffer k = none ∨ dlookup st.pending_packets k = none

theorem disjointKeys_congr (st st' : ServerState)
    (hb : st'.reliable_buffer = st.reliable_buffer)
    (hp : st'.pending_packets = st.pending_packets)
    (h : disjointKeys st) : disjointKeys st' := by
  intro k
  rw [hb, hp]
  exact h k

/-- A key found after the gap-fill loop was either already awaited or is a
hole (not in the reorder buffer). -/
theorem fill_gaps_lookup_isSome (buf : List (Nat × String)) (t : ℚ)
    (l : List Nat) (pend : List (Nat × ℚ)) (q : Nat)
    (h : (dlookup (fill_gaps buf t pend l) q).isSome = true) :
    (dlookup pend q).isSome = true ∨ dlookup buf q = none := by
  induction l generalizing pend with
  | nil => exact Or.inl h
  | cons i rest ih =>
    unfold fill_gaps at h
    by_cases hc : ((dlookup pend i).isSome || (dlookup buf i).isSome) = true
    · rw [if_pos hc] at h
      exact ih pend h
    · rw [if_neg hc] at h
      rcases ih _ h with h' | h'
      · by_cases hqi : q = i
        · subst hqi
          right
          cases hb : dlookup buf q with
          | none => rfl
          | some _ =>
              rw [Bool.or_eq_true, not_or] at hc
              rw [hb] at hc
              exact absurd rfl hc.2
        · rw [dlookup_dinsert_ne pend i q t hqi] at h'
          exact Or.inl h'
      · exact Or.inr h'

/-- The gap-wait map after the (guarded) gap-fill of a reliable arrival. -/
theorem pend_after_isSome (buf : List (Nat × String)) (pend : List (Nat × ℚ))
    (now : ℚ) (a b q : Nat)
    (h : (dlookup
        (if a < b then fill_gaps buf now pend (List.range' a (b - a)) else pend)
        q).isSome = true) :
    (dlookup pend q).isSome = true ∨ dlookup buf q = none := by
  by_cases hab : a < b
  · rw [if_pos hab] at h
    exact fill_gaps_lookup_isSome buf now _ pend q h
  · rw [if_neg hab] at h
    exact Or.inl h

theorem handle_reliable_disjoint (st : ServerState) (seqno : Nat)
    (payload : String) (now : ℚ) (h : disjointKeys st) :
    disjointKeys (handle_reliable_channel st seqno payload now).1 := by
  by_cases h1 : seqno < st.next_expected_reliable
  · rw [handle_reliable_stale st seqno payload now h1]
    exact h
  · by_cases h2 : (dlookup st.reliable_buffer seqno).isSome = true
    · have hid : (handle_reliable_channel st seqno payload now).1 = st := by
        unfold handle_reliable_channel
        simp [h1, h2]
      rw [hid]
      exact h
    · have hstate : (handle_reliable_channel st seqno payload now).1
        = { st with
            reliable_buffer := dinsert st.reliable_buffer seqno payload,
            pending_packets :=
              if st.next_expected_reliable < seqno then
                fill_gaps (dinsert st.reliable_buffer seqno payload) now
                  (derase st.pending_packets seqno)
                  (List.range' st.next_expected_reliable
                    (seqno - st.next_expected_reliable))
              else derase st.pending_packets seqno } := by
        unfold handle_reliable_channel
        simp [h1, h2]
      rw [hstate]
      intro k
      by_cases hks : k = seqno
      · subst hks
        right
        cases hp : dlookup (if st.next_expected_reliable < k then
            fill_gaps (dinsert st.reliable_buffer k payload) now
              (derase st.pending_packets k)
              (List.range' st.next_expected_reliable
                (k - st.next_expected_reliable))
          else derase st.pending_packets k) k with
        | none => rfl
        | some t0 =>
            exfalso
            have hs : (dlookup (if st.next_expected_reliable < k then
                fill_gaps (dinsert st.reliable_buffer k payload) now
                  (derase st.pending_packets k)
                  (List.range' st.next_expected_reliable
                    (k - st.next_expected_reliable))
              else derase st.pending_packets k) k).isSome = true := by
              rw [hp]; rfl
            rcases pend_after_isSome _ _ _ _ _ _ hs with h' | h'
            · rw [dlookup_derase_self] at h'
              exact Bool.false_ne_true h'
            · rw [dlookup_dinsert_self] at h'
              exact Option.some_ne_none _ h'
      · by_cases hbk : dlookup st.reliable_buffer k = none
        · left
          rw [dlookup_dinsert_ne _ _ _ _ hks]
          exact hbk
        · right
          have hpk : dlookup st.pending_packets k = none :=
            (h k).resolve_left hbk
          cases hp : dlookup (if st.next_expected_reliable < seqno then
              fill_gaps (dinsert st.reliable_buffer seqno payload) now
                (derase st.pending_packets seqno)
                (List.range' st.next_expected_reliable
                  (seqno - st.next_expected_reliable))
            else derase st.pending_packets seqno) k with
          | none => rfl
          | some t0 =>
              exfalso
              have hs : (dlookup (if st.next_expected_reliable < seqno then
                  fill_gaps (dinsert st.reliable_buffer seqno payload) now
                    (derase st.pending_packets seqno)
                    (List.range' st.next_expected_reliable
                      (seqno - st.next_expected_reliable))
                else derase st.pending_packets seqno) k).isSome = true := by
                rw [hp]; rfl
              rcases pend_after_isSome _ _ _ _ _ _ hs with h' | h'
              · rw [dlookup_derase_ne _ _ _ hks, hpk] at h'
                exact Bool.false_ne_true h'
              · rw [dlookup_dinsert_ne _ _ _ _ hks] at h'
                exact hbk h'

/-- C10: every receiver operation — reliable or unreliable arrival,
either application poll, and the gap-skip timer — preserves disjointness of
the reorder buffer's and the gap-wait map's key sets (the invariant that
makes delivery safe even though `receive_reliable` never removes the
delivered sequence number from the gap-wait map). -/
theorem reorder_gapwait_disjoint (st : ServerState) (op : ServerOp)
    (h : disjointKeys st) : disjointKeys (applyOp st op) := by
  cases op with
  | arrive c s t p now =>
      show disjointKeys (packet_receiver_step st c s t p now).1
      by_cases h0 : c = 0
      · subst h0
        have hstep : (packet_receiver_step st 0 s t p now).1
            = (handle_reliable_channel
                (calculate_jitter
                  { st with
                    packets_received_reliable := st.packets_received_reliable + 1,
                    bytes_received := st.bytes_received + p.utf8ByteSize }
                  t now) s p now).1 := by
          unfold packet_receiver_step
          simp
        rw [hstep]
        apply handle_reliable_disjoint
        apply disjointKeys_congr _ _ (calculate_jitter_buffer _ _ _)
          (calculate_jitter_pending _ _ _)
        exact disjointKeys_congr _ _ rfl rfl h
      · by_cases h1 : c = 1
        · subst h1
          have hstep : (packet_receiver_step st 1 s t p now).1
              = handle_unreliable_channel st s p := by
            unfold packet_receiver_step
            simp
          rw [hstep]
          exact disjointKeys_congr _ _ rfl rfl h
        · have hstep : (packet_receiver_step st c s t p now).1 = st := by
            unfold packet_receiver_step
            simp [h0, h1]
          rw [hstep]
          exact h
  | deliver =>
      show disjointKeys (receive_reliable st).1
      unfold receive_reliable
      cases hl : dlookup st.reliable_buffer st.next_expected_reliable with
      | none => exact h
      | some payload =>
          intro k
          rcases h k with hb | hp
          · left
            show dlookup (derase st.reliable_buffer st.next_expected_reliable) k
              = none
            rw [dlookup_derase]
            by_cases hk : k = st.next_expected_reliable <;> simp [hk, hb]
          · right
            exact hp
  | deliverU =>
      show disjointKeys (receive_unreliable st).1
      unfold receive_unreliable
      cases st.unreliable_queue with
      | nil => exact h
      | cons q rest => exact disjointKeys_congr _ _ rfl rfl h
  | timeout now =>
      show disjointKeys (timeout_checker_step st now)
      cases hl : dlookup st.pending_packets st.next_expected_reliable with
      | none =>
          have hstep : timeout_checker_step st now = st := by
            simp [timeout_checker_step, hl]
          rw [hstep]
          exact h
      | some t0 =>
          by_cases he : now - t0 > TIMEOUT_THRESHOLD
          · have hstep : timeout_checker_step st now
                = { st with
                    pending_packets :=
                      derase st.pending_packets st.next_expected_reliable,
                    packets_skipped := st.packets_skipped + 1,
                    next_expected_reliable := st.next_expected_reliable + 1 } := by
              simp [timeout_checker_step, hl, he]
            rw [hstep]
            intro k
            rcases h k with hb | hp
            · exact Or.inl hb
            · right
              show dlookup (derase st.pending_packets st.next_expected_reliable) k
                = none
              rw [dlookup_derase]
              by_cases hk : k = st.next_expected_reliable <;> simp [hk, hp]
          · have hstep : timeout_checker_step st now = st := by
              simp [timeout_checker_step, hl, he]
            rw [hstep]
            exact h

theorem reorder_gapwait_disjoint_witness :
    dlookup (applyOp initServer ServerOp.deliver).reliable_buffer 0 = none ∨
    dlookup (applyOp initServer ServerOp.deliver).pending_packets 0 = none :=
  reorder_gapwait_disjoint initServer ServerOp.deliver (fun _ => Or.inl rfl) 0

/-! ## C8 -/

/-- C8: `receive_reliable` is a non-blocking poll.  When the reorder buffer
holds an entry for the cursor's sequence number, that entry is removed, the
cursor advances by exactly 1, the gap-wait bookkeeping for that slot is
clear afterwards (`gap_start_time` reset to `None`; no gap-wait entry for
the delivered number, by the disjointness invariant), and the entry's
payload is returned; when no entry exists at the cursor the call returns
`None` immediately and leaves the whole receiver state unchanged. -/
theorem receive_reliable_poll (st : ServerState) (h : disjointKeys st) :
    (dlookup st.reliable_buffer st.next_expected_reliable = none →
      receive_reliable st = (st, none)) ∧
    ∀ p : String, dlookup st.reliable_buffer st.next_expected_reliable = some p →
      (receive_reliable st).2 = some (st.next_expected_reliable, p) ∧
      (receive_reliable st).1.reliable_buffer
        = derase st.reliable_buffer st.next_expected_reliable ∧
      (receive_reliable st).1.next_expected_reliable
        = st.next_expected_reliable + 1 ∧
      (receive_reliable st).1.gap_start_time = none ∧
      (receive_reliable st).1.pending_packets = st.pending_packets ∧
      dlookup (receive_reliable st).1.pending_packets st.next_expected_reliable
        = none := by
  constructor
  · intro hn
    unfold receive_reliable
    rw [hn]
  · intro p hp
    have hpend : dlookup st.pending_packets st.next_expected_reliable = none := by
      rcases h st.next_expected_reliable with hb | hpd
      · rw [hp] at hb
        exact absurd hb (Option.some_ne_none _)
      · exact hpd
    refine ⟨?_, ?_, ?_, ?_, ?_, ?_⟩ <;> simp [receive_reliable, hp, hpend]

/-- Receiver state holding exactly the cursor's packet, used as witness. -/
def pollDemoState : ServerState :=
  { initServer with reliable_buffer := [(0, "a")] }

theorem receive_reliable_poll_witness :
    (receive_reliable pollDemoState).2
      = some (pollDemoState.next_expected_reliable, "a") ∧
    (receive_reliable pollDemoState).1.reliable_buffer
      = derase pollDemoState.reliable_buffer pollDemoState.next_expected_reliable ∧
    (receive_reliable pollDemoState).1.next_expected_reliable
      = pollDemoState.next_expected_reliable + 1 ∧
    (receive_reliable pollDemoState).1.gap_start_time = none ∧
    (receive_reliable pollDemoState).1.pending_packets
      = pollDemoState.pending_packets ∧
    dlookup (receive_reliable pollDemoState).1.pending_packets
      pollDemoState.next_expected_reliable = none :=
  (receive_reliable_poll pollDemoState (fun _ => Or.inr rfl)).2 "a" rfl

/-! ## C9: jitter estimator -/

/-- The spec's iterative jitter formula `J += (|D| - J)/16` applied to a
sequence of interarrival difference samples `D`. -/
def jitterIter (j : ℚ) (ds : List ℚ) : ℚ :=
  ds.foldl (fun j d => j + (|d| - j) / 16) j

/-- Three reliable arrivals with remote send timestamps 0, 0, 0 (ms) at
local arrival times 10 ms, 12 ms, 8 ms (seconds: 1/100, 3/250, 1/125). -/
def jitterScenario : ServerState :=
  calculate_jitter
    (calculate_jitter (calculate_jitter initServer 0 (1/100)) 0 (3/250))
    0 (1/125)

/-- C9: on each reliable arrival with remote timestamp `T` (ms) and local
arrival time `A` (s), `_calculate_jitter` stores `(A, T)` as the previous
sample; when a previous sample existed it first updates
`J := J + (|D| - J)/16` with `D = (A - A_prev) - (T - T_prev)/1000`
(the division converting the millisecond timestamps to seconds), and on the
first sample it leaves `J` unchanged.  On the arrival sequence with remote
timestamps `{0,0,0}` ms and local arrivals `{10ms,12ms,8ms}` the resulting
jitter (in ms) equals the iterative application of the formula to the `D`
sequence `{2, -4}` ms, the first arrival being skipped. -/
theorem jitter_estimator (st : ServerState) (T A : ℚ) :
    ((calculate_jitter st T A).last_arrival = some A ∧
     (calculate_jitter st T A).last_timestamp = some T) ∧
    (calculate_jitter st T A).jitter
      = (match st.last_arrival, st.last_timestamp with
         | some la, some lt =>
             st.jitter + (|(A - la) - (T - lt) / 1000| - st.jitter) / 16
         | _, _ => st.jitter) ∧
    jitterScenario.jitter * 1000 = jitterIter 0 [2, -4] := by
  refine ⟨⟨?_, ?_⟩, ?_, ?_⟩
  · cases hla : st.last_arrival <;> cases hlt : st.last_timestamp <;>
      simp [calculate_jitter, hla, hlt]
  · cases hla : st.last_arrival <;> cases hlt : st.last_timestamp <;>
      simp [calculate_jitter, hla, hlt]
  · cases hla : st.last_arrival <;> cases hlt : st.last_timestamp <;>
      simp [calculate_jitter, hla, hlt]
  · norm_num [jitterScenario, calculate_jitter, initServer, jitterIter, abs,
      max_def]

/-! ## C1: the loss-free reliable stream -/

/-- Deliver the given reliable data packets to `_handle_reliable_channel`
in order, all at clock reading `t`. -/
def runArrivals (t : ℚ) (sends : List (Nat × String)) (st : ServerState) :
    ServerState :=
  sends.foldl (fun s p => (handle_reliable_channel s p.1 p.2 t).1) st

/-- Call `receive_reliable` up to `n` times, collecting the delivered
`(seqno, payload)` pairs in order, stopping early on an empty poll. -/
def drain (st : ServerState) : Nat → List (Nat × String) × ServerState
  | 0 => ([], st)
  | n + 1 =>
    match receive_reliable st with
    | (st', some r) =>
        let rest := drain st' n
        (r :: rest.1, rest.2)
    | (st', none) => ([], st')

theorem dlookup_zip_range'_out (c : Nat) (qs : List String) (q : Nat)
    (hq : q < c ∨ c + qs.length ≤ q) :
    dlookup ((List.range' c qs.length).zip qs) q = none := by
  induction qs generalizing c with
  | nil => rfl
  | cons a qs' ih =>
    rw [show (a :: qs').length = qs'.length + 1 from rfl, List.range'_succ,
      List.zip_cons_cons, dlookup_cons]
    have hlen : (a :: qs').length = qs'.length + 1 := rfl
    rw [hlen] at hq
    have hqc : ¬ q = c := by omega
    rw [if_neg hqc]
    exact ih (c + 1) (by omega)

theorem dlookup_zip_range'_in (c : Nat) (qs : List String) (q : Nat)
    (h1 : c ≤ q) (h2 : q < c + qs.length) :
    (dlookup ((List.range' c qs.length).zip qs) q).isSome = true := by
  induction qs generalizing c with
  | nil => simp only [List.length_nil, Nat.add_zero] at h2; omega
  | cons a qs' ih =>
    rw [show (a :: qs').length = qs'.length + 1 from rfl, List.range'_succ,
      List.zip_cons_cons, dlookup_cons]
    by_cases hq : q = c
    · rw [if_pos hq]; rfl
    · rw [if_neg hq]
      have hlen : (a :: qs').length = qs'.length + 1 := rfl
      rw [hlen] at h2
      exact ih (c + 1) (by omega) (by omega)

theorem derase_of_lookup_none {α : Type} (l : List (Nat × α)) (q : Nat)
    (h : dlookup l q = none) : derase l q = l := by
  induction l with
  | nil => rfl
  | cons p rest ih =>
    obtain ⟨k, v⟩ := p
    rw [dlookup_cons] at h
    by_cases hq : q = k
    · rw [if_pos hq] at h
      exact absurd h (Option.some_ne_none _)
    · rw [if_neg hq] at h
      have hne : ((k, v) : Nat × α).1 ≠ q := fun hc => hq hc.symm
      have hcons : derase ((k, v) :: rest) q = (k, v) :: derase rest q := by
        simp [derase, hne]
      rw [hcons, ih h]

/-- The gap-fill loop adds nothing when every index it scans is already in
the reorder buffer. -/
theorem fill_gaps_noop (buf : List (Nat × String)) (t : ℚ) (l : List Nat)
    (pend : List (Nat × ℚ)) (h : ∀ i ∈ l, (dlookup buf i).isSome = true) :
    fill_gaps buf t pend l = pend := by
  induction l generalizing pend with
  | nil => rfl
  | cons i rest ih =>
    unfold fill_gaps
    have hi := h i (List.mem_cons_self _ _)
    rw [if_pos (by rw [hi, Bool.or_true])]
    exact ih pend (fun j hj => h j (List.mem_cons_of_mem _ hj))

/-- After in-order arrivals of the packets `rs` (sequence numbers
continuing the already-buffered block `qs`), the reorder buffer holds the
whole block and the gap-wait map stays empty. -/
theorem runArrivals_inorder (t : ℚ) (c : Nat) (qs rs : List String)
    (base : ServerState)
    (hbuf : base.reliable_buffer = (List.range' c qs.length).zip qs)
    (hpend : base.pending_packets = [])
    (hcur : base.next_expected_reliable = c) :
    runArrivals t ((List.range' (c + qs.length) rs.length).zip rs) base
      = { base with
          reliable_buffer := (List.range' c (qs.length + rs.length)).zip (qs ++ rs),
          pending_packets := [] } := by
  induction rs generalizing qs base with
  | nil =>
      show base = _
      simp only [List.length_nil, List.append_nil, Nat.add_zero]
      rw [← hbuf, ← hpend]
  | cons r rs' ih =>
      rw [show (r :: rs').length = rs'.length + 1 from rfl, List.range'_succ,
        List.zip_cons_cons]
      have hbufnew : dinsert base.reliable_buffer (c + qs.length) r
          = (List.range' c (qs.length + 1)).zip (qs ++ [r]) := by
        rw [hbuf]
        have hout : dlookup ((List.range' c qs.length).zip qs) (c + qs.length)
            = none :=
          dlookup_zip_range'_out c qs _ (Or.inr (Nat.le_refl _))
        simp only [dinsert, hout]
        rw [List.range'_concat, List.zip_append (by simp)]
        simp
      have hstep : (handle_reliable_channel base (c + qs.length) r t).1
          = { base with
              reliable_buffer := (List.range' c (qs.length + 1)).zip (qs ++ [r]),
              pending_packets := [] } := by
        unfold handle_reliable_channel
        have hn1 : ¬ (c + qs.length < base.next_expected_reliable) := by
          rw [hcur]; omega
        have hn2 : dlookup base.reliable_buffer (c + qs.length) = none := by
          rw [hbuf]
          exact dlookup_zip_range'_out c qs _ (Or.inr (Nat.le_refl _))
        have hpend' : derase base.pending_packets (c + qs.length) = [] := by
          rw [hpend]; rfl
        have hfill : (if base.next_expected_reliable < c + qs.length then
            fill_gaps (dinsert base.reliable_buffer (c + qs.length) r) t
              (derase base.pending_packets (c + qs.length))
              (List.range' base.next_expected_reliable
                (c + qs.length - base.next_expected_reliable))
          else derase base.pending_packets (c + qs.length)) = [] := by
          by_cases hlt : base.next_expected_reliable < c + qs.length
          · rw [if_pos hlt, hpend']
            apply fill_gaps_noop
            intro i hi
            rw [List.mem_range'_1] at hi
            rw [hcur] at hi
            rw [hbufnew]
            have hin := dlookup_zip_range'_in c (qs ++ [r]) i (by omega)
              (by simp only [List.length_append, List.length_singleton]; omega)
            simpa using hin
          · rw [if_neg hlt, hpend']
        rw [if_neg hn1, if_neg (show ¬ ((dlookup base.reliable_buffer
            (c + qs.length)).isSome = true) from by rw [hn2]; simp)]
        show ({ base with
            reliable_buffer := dinsert base.reliable_buffer (c + qs.length) r,
            pending_packets := if base.next_expected_reliable < c + qs.length then
                fill_gaps (dinsert base.reliable_buffer (c + qs.length) r) t
                  (derase base.pending_packets (c + qs.length))
                  (List.range' base.next_expected_reliable
                    (c + qs.length - base.next_expected_reliable))
              else derase base.pending_packets (c + qs.length) } : ServerState)
          = _
        rw [hfill, hbufnew]
      rw [show runArrivals t ((c + qs.length, r)
            :: (List.range' (c + qs.length + 1) rs'.length).zip rs') base
          = runArrivals t ((List.range' (c + qs.length + 1) rs'.length).zip rs')
              ((handle_reliable_channel base (c + qs.length) r t).1) from rfl]
      rw [hstep]
      have hih := ih (qs ++ [r])
        { base with
          reliable_buffer := (List.range' c (qs.length + 1)).zip (qs ++ [r]),
          pending_packets := [] }
        (by simp) rfl (by rw [hcur])
      simp only [List.length_append, List.length_singleton] at hih
      rw [show c + (qs.length + 1) = c + qs.length + 1 from rfl] at hih
      rw [hih]
      rw [show (qs ++ [r]) ++ rs' = qs ++ r :: rs' from by simp]
      rw [show qs.length + 1 + rs'.length = qs.length + (rs'.length + 1) from by
        omega]

/-- In-order delivery: draining a buffer that holds exactly the contiguous
block starting at the cursor yields that block, in ascending sequence
order, and empties the buffer. -/
theorem drain_spec (ps : List String) (c : Nat) (st : ServerState)
    (hbuf : st.reliable_buffer = (List.range' c ps.length).zip ps)
    (hcur : st.next_expected_reliable = c) :
    (drain st ps.length).1 = (List.range' c ps.length).zip ps ∧
    (drain st ps.length).2.reliable_buffer = [] ∧
    (drain st ps.length).2.next_expected_reliable = c + ps.length := by
  induction ps generalizing c st with
  | nil =>
      simp only [List.length_nil, Nat.add_zero]
      refine ⟨rfl, ?_, ?_⟩
      · rw [show (drain st 0).2 = st from rfl, hbuf]
        rfl
      · rw [show (drain st 0).2 = st from rfl, hcur]
  | cons p ps' ih =>
      have hbufc : st.reliable_buffer
          = (c, p) :: (List.range' (c + 1) ps'.length).zip ps' := by
        rw [hbuf, show (p :: ps').length = ps'.length + 1 from rfl,
          List.range'_succ, List.zip_cons_cons]
      have hlook : dlookup st.reliable_buffer c = some p := by
        rw [hbufc, dlookup_cons, if_pos rfl]
      have htail : derase st.reliable_buffer c
          = (List.range' (c + 1) ps'.length).zip ps' := by
        rw [hbufc]
        have hhd : derase ((c, p) :: (List.range' (c + 1) ps'.length).zip ps') c
            = derase ((List.range' (c + 1) ps'.length).zip ps') c := by
          simp [derase]
        rw [hhd]
        exact derase_of_lookup_none _ _
          (dlookup_zip_range'_out (c + 1) ps' c (Or.inl (by omega)))
      have hrecv : receive_reliable st
          = ({ st with
              reliable_buffer := derase st.reliable_buffer c,
              next_expected_reliable := c + 1,
              gap_start_time := none,
              packets_delivered_reliable := st.packets_delivered_reliable + 1 },
            some (c, p)) := by
        unfold receive_reliable
        rw [hcur]
        simp [hlook]
      have hdrain : drain st (ps'.length + 1)
          = ((c, p) :: (drain ({ st with
              reliable_buffer := derase st.reliable_buffer c,
              next_expected_reliable := c + 1,
              gap_start_time := none,
              packets_delivered_reliable := st.packets_delivered_reliable + 1 })
              ps'.length).1,
            (drain ({ st with
              reliable_buffer := derase st.reliable_buffer c,
              next_expected_reliable := c + 1,
              gap_start_time := none,
              packets_delivered_reliable := st.packets_delivered_reliable + 1 })
              ps'.length).2) := by
        show (match receive_reliable st with
          | (st', some r) => (r :: (drain st' ps'.length).1, (drain st' ps'.length).2)
          | (st', none) => ([], st')) = _
        rw [hrecv]
      have hih := ih (c + 1)
        { st with
          reliable_buffer := derase st.reliable_buffer c,
          next_expected_reliable := c + 1,
          gap_start_time := none,
          packets_delivered_reliable := st.packets_delivered_reliable + 1 }
        (by rw [htail]) rfl
      refine ⟨?_, ?_, ?_⟩
      · rw [show (p :: ps').length = ps'.length + 1 from rfl, hdrain,
          List.range'_succ, List.zip_cons_cons]
        rw [hih.1]
      · rw [show (p :: ps').length = ps'.length + 1 from rfl, hdrain]
        exact hih.2.1
      · rw [show (p :: ps').length = ps'.length + 1 from rfl, hdrain]
        rw [hih.2.2]
        omega

/-- C1: if the `N` reliable sends (sequence numbers `0..N-1`, as assigned
by the sender's counter) are all delivered, repeated `receive_reliable`
calls yield exactly the `N` payloads in ascending sequence order — no
duplicate, no gap — and the next poll returns `None`. -/
theorem reliable_stream_no_loss (t : ℚ) (ps : List String) :
    (drain (runArrivals t ((List.range ps.length).zip ps) initServer)
        ps.length).1
      = (List.range ps.length).zip ps ∧
    (receive_reliable
        (drain (runArrivals t ((List.range ps.length).zip ps) initServer)
          ps.length).2).2 = none := by
  have hrun := runArrivals_inorder t 0 [] ps initServer rfl rfl rfl
  simp only [List.length_nil, Nat.add_zero, Nat.zero_add, List.nil_append] at hrun
  rw [List.range_eq_range']
  rw [hrun]
  have hdrain := drain_spec ps 0
    { initServer with
      reliable_buffer := (List.range' 0 ps.length).zip ps,
      pending_packets := [] }
    rfl rfl
  refine ⟨hdrain.1, ?_⟩
  have hempty := hdrain.2.1
  unfold receive_reliable
  rw [show dlookup (drain { initServer with
      reliable_buffer := (List.range' 0 ps.length).zip ps,
      pending_packets := [] } ps.length).2.reliable_buffer
      (drain { initServer with
      reliable_buffer := (List.range' 0 ps.length).zip ps,
      pending_packets := [] } ps.length).2.next_expected_reliable = none from by
    rw [hempty]; rfl]

end HUDP
